import Mathlib

/-!
# Verification of `xstast24/utils`

Shallow embedding of the repository's two source files:

* `src/utils.py` — a line-counting utility (`count_lines`,
  `count_dir_lines`, `count_file_lines`) and a generic polling helper
  (`wait_for`, `_wait_for_variable`, `_wait_for_callable`);
* `src/enumeration.py` — the `Enumeration` base class with the class
  methods `enum_values` and `contains`.

Modelling conventions:

* Wall-clock time is idealised: the call instant of `wait_for` is time 0,
  so `end_time = time.time() + timeout` becomes `endTime = timeout`, and
  each `time.sleep(period)` advances the clock by exactly `period`;
  `time.time()` reads themselves take no time.  Times are rationals.
* The polling loops are given an explicit fuel argument and return
  `none` when the fuel is exhausted before the loop returns; every
  result the Python loop can produce is a `some`.
* The loops are instrumented with ghost counters (number of `time.sleep`
  calls performed; for the callable form also the number of invocations
  of the condition) that do not influence control flow.
* A Python callable condition together with its fixed `args`/`kwargs` is
  modelled as a function `Nat → α` giving the value returned by each
  successive invocation (invocation `k` returns `f k`).
-/

set_option autoImplicit false

namespace Utils

variable {α : Type} [DecidableEq α]

/-- Result of one polling loop run (`_wait_for_variable`): the returned
success flag and latest value, plus a ghost count of `time.sleep` calls. -/
structure PollResult (α : Type) where
  success : Bool
  last : α
  sleeps : Nat
deriving DecidableEq, Repr

/-- Result of one polling loop run (`_wait_for_callable`): the returned
success flag and latest value, plus ghost counts of condition invocations
and `time.sleep` calls. -/
structure CallPollResult (α : Type) where
  success : Bool
  last : α
  calls : Nat
  sleeps : Nat
deriving DecidableEq, Repr

/-- The `while` loop of `_wait_for_variable` (src/utils.py lines 83-90).
State: current time `t`, current `latest_value`.  Each iteration first
checks `time.time() < end_time`; on a match it returns success with the
matched value, otherwise it sleeps for `period` and re-reads the
`condition` parameter (line 88 `latest_value = condition` re-binds the
same snapshot).  `fuel` bounds the number of remaining iterations;
`none` means the loop would still be running. -/
def waitVarLoop (condition expected : α) (endTime period : ℚ) :
    Nat → ℚ → α → Nat → Option (PollResult α)
  | 0, _, _, _ => none
  | fuel + 1, t, latest, sleeps =>
    if t < endTime then
      if latest = expected then
        some ⟨true, latest, sleeps⟩
      else
        waitVarLoop condition expected endTime period fuel (t + period) condition (sleeps + 1)
    else
      some ⟨false, latest, sleeps⟩

/-- `_wait_for_variable(condition, expected_value, end_time, period)`
(src/utils.py lines 77-90): `latest_value = condition`, then the loop. -/
def wait_for_variable (condition expected : α) (endTime period : ℚ) (fuel : Nat) :
    Option (PollResult α) :=
  waitVarLoop condition expected endTime period fuel 0 condition 0

/-- The `while` loop of `_wait_for_callable` (src/utils.py lines 99-105).
`calls` is the number of invocations of the condition performed so far,
so the current `latest_value` is the result of invocation `calls - 1`.
On a non-match the loop sleeps and re-invokes the condition
(line 103 `latest_value = condition(*args, **kwargs)`). -/
def waitCallLoop (f : Nat → α) (expected : α) (endTime period : ℚ) :
    Nat → ℚ → α → Nat → Nat → Option (CallPollResult α)
  | 0, _, _, _, _ => none
  | fuel + 1, t, latest, calls, sleeps =>
    if t < endTime then
      if latest = expected then
        some ⟨true, latest, calls, sleeps⟩
      else
        waitCallLoop f expected endTime period fuel (t + period) (f calls) (calls + 1) (sleeps + 1)
    else
      some ⟨false, latest, calls, sleeps⟩

/-- `_wait_for_callable(condition, args, kwargs, expected_value, end_time,
period)` (src/utils.py lines 93-105): the condition is invoked once
before the loop (line 98), then the loop runs. -/
def wait_for_callable (f : Nat → α) (expected : α) (endTime period : ℚ) (fuel : Nat) :
    Option (CallPollResult α) :=
  waitCallLoop f expected endTime period fuel 0 (f 0) 1 0

/-- The condition argument of `wait_for`: a plain (non-callable) value,
or a callable already bound to its `args`/`kwargs`. -/
inductive WaitCondition (α : Type) where
  | static (value : α)
  | callable (f : Nat → α)

/-- Value produced by evaluation number `k` of a condition: a static
condition always reads the same snapshot, a callable returns `f k`. -/
def condEval (c : WaitCondition α) (k : Nat) : α :=
  match c with
  | WaitCondition.static v => v
  | WaitCondition.callable f => f k

/-- Observable outcome of `wait_for`: a normal boolean return, or a
raised `TimeoutError` whose message carries the expected value and the
last observed value (src/utils.py line 134). -/
inductive WaitOutcome (α : Type) where
  | ret (b : Bool)
  | timeoutError (expected : α) (last : α)
deriving DecidableEq, Repr

/-- `wait_for(condition, args, kwargs, expected_value, timeout, period,
raise_exc)` (src/utils.py lines 108-136).  `end_time = time.time() +
timeout` with the call instant normalised to time 0, so `endTime =
timeout`.  Dispatches on callable vs. static, then raises `TimeoutError`
on failure when `raise_exc` is set, else returns the boolean result. -/
def wait_for (condition : WaitCondition α) (expected : α)
    (timeout period : ℚ) (raise_exc : Bool) (fuel : Nat) : Option (WaitOutcome α) :=
  match condition with
  | WaitCondition.callable f =>
    match wait_for_callable f expected timeout period fuel with
    | none => none
    | some r =>
      if r.success = false ∧ raise_exc then some (WaitOutcome.timeoutError expected r.last)
      else some (WaitOutcome.ret r.success)
  | WaitCondition.static v =>
    match wait_for_variable v expected timeout period fuel with
    | none => none
    | some r =>
      if r.success = false ∧ raise_exc then some (WaitOutcome.timeoutError expected r.last)
      else some (WaitOutcome.ret r.success)

example : wait_for_variable (1 : Int) 1 10 1 5 = some ⟨true, 1, 0⟩ := by decide

example : wait_for_variable (1 : Int) 1 0 1 5 = some ⟨false, 1, 0⟩ := by decide

example : wait_for_callable (fun _ => (0 : Int)) 1 0 1 3 = some ⟨false, 0, 1, 0⟩ := by decide

example : wait_for_callable (fun _ => (2 : Int)) 2 10 1 9 = some ⟨true, 2, 1, 0⟩ := by decide

example : wait_for (WaitCondition.static (0 : Int)) 1 0 1 true 3 =
    some (WaitOutcome.timeoutError 1 0) := by decide

/-- One-step unfolding of `waitVarLoop`. -/
lemma waitVarLoop_succ (condition expected : α) (T p t : ℚ) (latest : α) (s fuel : Nat) :
    waitVarLoop condition expected T p (fuel + 1) t latest s =
      if t < T then
        if latest = expected then some ⟨true, latest, s⟩
        else waitVarLoop condition expected T p fuel (t + p) condition (s + 1)
      else some ⟨false, latest, s⟩ := rfl

/-- One-step unfolding of `waitCallLoop`. -/
lemma waitCallLoop_succ (f : Nat → α) (expected : α) (T p t : ℚ) (latest : α)
    (c s fuel : Nat) :
    waitCallLoop f expected T p (fuel + 1) t latest c s =
      if t < T then
        if latest = expected then some ⟨true, latest, c, s⟩
        else waitCallLoop f expected T p fuel (t + p) (f c) (c + 1) (s + 1)
      else some ⟨false, latest, c, s⟩ := rfl

/-- Invariant of the static-condition loop: starting from any state whose
`latest_value` is the entry snapshot `condition`, the loop only ever
compares that snapshot, so the reported last value is the snapshot and
success is determined solely by the snapshot comparison and the clock. -/
lemma waitVarLoop_inv (condition expected : α) (T p : ℚ) :
    ∀ (fuel : Nat) (t : ℚ) (s : Nat) (r : PollResult α),
      waitVarLoop condition expected T p fuel t condition s = some r →
      r.last = condition ∧ (r.success = true ↔ (condition = expected ∧ t < T)) := by
  intro fuel
  induction fuel with
  | zero =>
    intro t s r h
    simp [waitVarLoop] at h
  | succ n ih =>
    intro t s r h
    by_cases ht : t < T
    · by_cases he : condition = expected
      · simp [waitVarLoop, ht, he] at h
        simp [← h, ht, he]
      · simp [waitVarLoop, ht, he] at h
        have hrec := ih (t + p) (s + 1) r h
        refine ⟨hrec.1, ?_, fun hc => absurd hc.1 he⟩
        intro hs
        exact absurd (hrec.2.mp hs).1 he
    · simp [waitVarLoop, ht] at h
      simp [← h, ht]

/-- `_wait_for_variable` entry-point form of `waitVarLoop_inv`. -/
lemma wait_for_variable_inv (v expected : α) (T p : ℚ) (fuel : Nat) (r : PollResult α)
    (h : wait_for_variable v expected T p fuel = some r) :
    r.last = v ∧ (r.success = true ↔ (v = expected ∧ 0 < T)) :=
  waitVarLoop_inv v expected T p fuel 0 0 r h

/-- Invariant of the callable loop when no invocation ever matches: the
run can only end in failure, and the reported last value is the value of
the final invocation. -/
lemma waitCallLoop_inv (f : Nat → α) (expected : α) (T p : ℚ)
    (hf : ∀ k, f k ≠ expected) :
    ∀ (fuel : Nat) (t : ℚ) (c s : Nat) (r : CallPollResult α), 1 ≤ c →
      waitCallLoop f expected T p fuel t (f (c - 1)) c s = some r →
      r.success = false ∧ 1 ≤ r.calls ∧ r.last = f (r.calls - 1) := by
  intro fuel
  induction fuel with
  | zero =>
    intro t c s r hc h
    simp [waitCallLoop] at h
  | succ n ih =>
    intro t c s r hc h
    by_cases ht : t < T
    · have he : ¬ f (c - 1) = expected := hf _
      simp [waitCallLoop, ht, he] at h
      exact ih (t + p) (c + 1) (s + 1) r (by omega) (by simpa using h)
    · simp [waitCallLoop, ht] at h
      simp [← h, hc]

/-- `_wait_for_callable` entry-point form of `waitCallLoop_inv`. -/
lemma wait_for_callable_inv (f : Nat → α) (expected : α) (T p : ℚ)
    (hf : ∀ k, f k ≠ expected) (fuel : Nat) (r : CallPollResult α)
    (h : wait_for_callable f expected T p fuel = some r) :
    r.success = false ∧ 1 ≤ r.calls ∧ r.last = f (r.calls - 1) :=
  waitCallLoop_inv f expected T p hf fuel 0 1 0 r le_rfl
    (by simpa [wait_for_callable] using h)

/-- The static-condition loop terminates within `n + 1` iterations once
`n` sleeps of length `p` are enough to reach the deadline. -/
lemma waitVarLoop_term (v expected : α) (T p : ℚ) :
    ∀ (n : Nat) (t : ℚ) (s : Nat), T ≤ t + (n : ℚ) * p →
      ∃ r, waitVarLoop v expected T p (n + 1) t v s = some r := by
  intro n
  induction n with
  | zero =>
    intro t s h
    have ht : ¬ t < T := not_lt.mpr (by simpa using h)
    exact ⟨⟨false, v, s⟩, by simp [waitVarLoop, ht]⟩
  | succ n ih =>
    intro t s h
    by_cases ht : t < T
    · by_cases he : v = expected
      · exact ⟨⟨true, v, s⟩, by simp [waitVarLoop, ht, he]⟩
      · obtain ⟨r, hr⟩ := ih (t + p) (s + 1) (by push_cast at h ⊢; linarith)
        exact ⟨r, by rw [waitVarLoop_succ, if_pos ht, if_neg he]; exact hr⟩
    · exact ⟨⟨false, v, s⟩, by simp [waitVarLoop, ht]⟩

/-- The callable loop terminates within `n + 1` iterations once `n`
sleeps of length `p` are enough to reach the deadline. -/
lemma waitCallLoop_term (f : Nat → α) (expected : α) (T p : ℚ) :
    ∀ (n : Nat) (t : ℚ) (c s : Nat), T ≤ t + (n : ℚ) * p →
      ∃ r, waitCallLoop f expected T p (n + 1) t (f (c - 1)) c s = some r := by
  intro n
  induction n with
  | zero =>
    intro t c s h
    have ht : ¬ t < T := not_lt.mpr (by simpa using h)
    exact ⟨⟨false, f (c - 1), c, s⟩, by simp [waitCallLoop, ht]⟩
  | succ n ih =>
    intro t c s h
    by_cases ht : t < T
    · by_cases he : f (c - 1) = expected
      · exact ⟨⟨true, f (c - 1), c, s⟩, by simp [waitCallLoop, ht, he]⟩
      · obtain ⟨r, hr⟩ := ih (t + p) (c + 1) (s + 1) (by push_cast at h ⊢; linarith)
        refine ⟨r, ?_⟩
        rw [waitCallLoop_succ, if_pos ht, if_neg he]
        simpa using hr
    · exact ⟨⟨false, f (c - 1), c, s⟩, by simp [waitCallLoop, ht]⟩

/-- C1 (counterexample): with `timeout = 0` a static condition that
already equals `expected_value` is nevertheless reported as a failure —
`time.time() < end_time` is false before the first comparison — so the
claim does not hold for every timeout. -/
theorem static_match_zero_timeout_cex :
    wait_for_variable (1 : Int) 1 0 1 5 = some ⟨false, 1, 0⟩ ∧
    wait_for (WaitCondition.static (1 : Int)) 1 0 1 false 5 = some (WaitOutcome.ret false) ∧
    wait_for (WaitCondition.static (1 : Int)) 1 0 1 false 5 ≠ some (WaitOutcome.ret true) := by
  decide

/-- C1 (amended): for every static condition already equal to
`expected_value` and every *positive* timeout, `wait_for` returns success
on the very first check, with zero `time.sleep` calls, for every period
and every `raise_exc` setting. -/
theorem static_match_immediate_success (v : α) (T p : ℚ) (fuel : Nat)
    (hT : 0 < T) (hfuel : 1 ≤ fuel) (raise_exc : Bool) :
    wait_for_variable v v T p fuel = some ⟨true, v, 0⟩ ∧
    wait_for (WaitCondition.static v) v T p raise_exc fuel = some (WaitOutcome.ret true) := by
  obtain ⟨n, rfl⟩ : ∃ n, fuel = n + 1 := ⟨fuel - 1, by omega⟩
  have h1 : wait_for_variable v v T p (n + 1) = some ⟨true, v, 0⟩ := by
    rw [wait_for_variable, waitVarLoop_succ, if_pos hT, if_pos rfl]
  refine ⟨h1, ?_⟩
  simp [wait_for, h1]

/-- C1 (witness). -/
theorem static_match_immediate_success_witness :
    wait_for_variable (7 : Int) 7 5 1 3 = some ⟨true, 7, 0⟩ ∧
    wait_for (WaitCondition.static (7 : Int)) 7 5 1 false 3 = some (WaitOutcome.ret true) :=
  static_match_immediate_success 7 5 1 3 (by decide) (by decide) false

/-- C2: if the condition never equals `expected_value` at any evaluation
(callable form: no invocation matches; static form: the snapshot differs)
and the period is positive, the polling run terminates and returns
failure, and the last value it reports is the value of the final
evaluation of the condition, a value different from `expected_value`. -/
theorem never_matching_poll_fails (f : Nat → α) (v expected : α) (T p : ℚ)
    (hf : ∀ k, f k ≠ expected) (hv : v ≠ expected) (hp : 0 < p) :
    (∃ fuel r, wait_for_callable f expected T p fuel = some r ∧
      r.success = false ∧ r.last = f (r.calls - 1) ∧ r.last ≠ expected) ∧
    (∃ fuel r, wait_for_variable v expected T p fuel = some r ∧
      r.success = false ∧ r.last = v ∧ r.last ≠ expected) := by
  obtain ⟨n, hn⟩ := exists_nat_ge (T / p)
  have hTn : T ≤ 0 + (n : ℚ) * p := by
    have := (div_le_iff₀ hp).mp hn
    linarith
  constructor
  · obtain ⟨r, hr⟩ := waitCallLoop_term f expected T p n 0 1 0 hTn
    have hr' : wait_for_callable f expected T p (n + 1) = some r := by
      rw [wait_for_callable]
      simpa using hr
    have hinv := wait_for_callable_inv f expected T p hf (n + 1) r hr'
    exact ⟨n + 1, r, hr', hinv.1, hinv.2.2, hinv.2.2 ▸ hf _⟩
  · obtain ⟨r, hr⟩ := waitVarLoop_term v expected T p n 0 0 hTn
    have hr' : wait_for_variable v expected T p (n + 1) = some r := hr
    have hinv := wait_for_variable_inv v expected T p (n + 1) r hr'
    have hsucc : r.success = false := by
      cases hb : r.success
      · rfl
      · exact absurd (hinv.2.mp hb).1 hv
    exact ⟨n + 1, r, hr', hsucc, hinv.1, hinv.1 ▸ hv⟩

/-- C2 (witness). -/
theorem never_matching_poll_fails_witness :
    (∃ fuel r, wait_for_callable (fun _ => (0 : Int)) 1 2 1 fuel = some r ∧
      r.success = false ∧ r.last = (fun _ => (0 : Int)) (r.calls - 1) ∧ r.last ≠ 1) ∧
    (∃ fuel r, wait_for_variable (0 : Int) 1 2 1 fuel = some r ∧
      r.success = false ∧ r.last = 0 ∧ r.last ≠ 1) :=
  never_matching_poll_fails (fun _ => 0) 0 1 2 1 (by intro k; norm_num) (by decide) (by decide)

/-- C3: when the condition never equals `expected_value` (callable form:
no invocation matches; static form: the snapshot differs), a run with
`raise_exc = true` that returns raises a `TimeoutError` whose payload
carries the expected value together with the run's last-observed value —
for a callable the value of the final invocation as reported by the
loop, for a static condition the entry snapshot itself — while the same
run with `raise_exc = false` returns the failure boolean `False` without
raising. -/
theorem raise_exc_timeout_behavior (f : Nat → α) (v expected : α) (T p : ℚ)
    (hf : ∀ k, f k ≠ expected) (hv : v ≠ expected) :
    (∀ fuel o, wait_for (WaitCondition.callable f) expected T p true fuel = some o →
      ∃ r, wait_for_callable f expected T p fuel = some r ∧ r.success = false ∧
        r.last = f (r.calls - 1) ∧ r.last ≠ expected ∧
        o = WaitOutcome.timeoutError expected r.last) ∧
    (∀ fuel o, wait_for (WaitCondition.static v) expected T p true fuel = some o →
      o = WaitOutcome.timeoutError expected v) ∧
    (∀ fuel o, wait_for (WaitCondition.callable f) expected T p false fuel = some o →
      o = WaitOutcome.ret false) ∧
    (∀ fuel o, wait_for (WaitCondition.static v) expected T p false fuel = some o →
      o = WaitOutcome.ret false) := by
  refine ⟨?_, ?_, ?_, ?_⟩
  · intro fuel o h
    rw [wait_for] at h
    cases hres : wait_for_callable f expected T p fuel with
    | none => rw [hres] at h; exact absurd h (by simp)
    | some r =>
      rw [hres] at h
      have hinv := wait_for_callable_inv f expected T p hf fuel r hres
      refine ⟨r, rfl, hinv.1, hinv.2.2, hinv.2.2 ▸ hf _, ?_⟩
      simp [hinv.1] at h
      exact h.symm
  · intro fuel o h
    rw [wait_for] at h
    cases hres : wait_for_variable v expected T p fuel with
    | none => rw [hres] at h; exact absurd h (by simp)
    | some r =>
      rw [hres] at h
      have hinv := wait_for_variable_inv v expected T p fuel r hres
      have hsucc : r.success = false := by
        cases hb : r.success
        · rfl
        · exact absurd (hinv.2.mp hb).1 hv
      simp [hsucc] at h
      rw [← h, hinv.1]
  · intro fuel o h
    rw [wait_for] at h
    cases hres : wait_for_callable f expected T p fuel with
    | none => rw [hres] at h; exact absurd h (by simp)
    | some r =>
      rw [hres] at h
      have hinv := wait_for_callable_inv f expected T p hf fuel r hres
      simp [hinv.1] at h
      exact h.symm
  · intro fuel o h
    rw [wait_for] at h
    cases hres : wait_for_variable v expected T p fuel with
    | none => rw [hres] at h; exact absurd h (by simp)
    | some r =>
      rw [hres] at h
      have hinv := wait_for_variable_inv v expected T p fuel r hres
      have hsucc : r.success = false := by
        cases hb : r.success
        · rfl
        · exact absurd (hinv.2.mp hb).1 hv
      simp [hsucc] at h
      exact h.symm

/-- C3 (witness). -/
theorem raise_exc_timeout_behavior_witness :
    (∃ r, wait_for_callable (fun _ => (0 : Int)) 1 0 1 3 = some r ∧ r.success = false ∧
      r.last = (fun _ => (0 : Int)) (r.calls - 1) ∧ r.last ≠ 1 ∧
      WaitOutcome.timeoutError (1 : Int) 0 = WaitOutcome.timeoutError 1 r.last) ∧
    WaitOutcome.timeoutError (1 : Int) 5 = WaitOutcome.timeoutError 1 5 ∧
    WaitOutcome.ret (α := Int) false = WaitOutcome.ret false ∧
    WaitOutcome.ret (α := Int) false = WaitOutcome.ret false := by
  have h := raise_exc_timeout_behavior (fun _ => (0 : Int)) 5 1 0 1
    (by intro k; norm_num) (by norm_num)
  exact ⟨h.1 3 (WaitOutcome.timeoutError 1 0) (by decide),
    h.2.1 3 (WaitOutcome.timeoutError 1 5) (by decide),
    h.2.2.1 3 (WaitOutcome.ret false) (by decide),
    h.2.2.2 3 (WaitOutcome.ret false) (by decide)⟩

/-- C4 (counterexample): with `timeout = 0` the callable condition *is*
invoked — exactly once, by the initial evaluation on line 98 that
precedes the loop — so "the callable is never invoked" fails.  The ghost
`calls` counter of the returned result is `1`, not `0`. -/
theorem zero_timeout_callable_invoked_cex :
    wait_for_callable (fun _ => (0 : Int)) 1 0 1 3 = some ⟨false, 0, 1, 0⟩ ∧
    (wait_for_callable (fun _ => (0 : Int)) 1 0 1 3).map CallPollResult.calls = some 1 ∧
    (wait_for_callable (fun _ => (0 : Int)) 1 0 1 3).map CallPollResult.calls ≠ some 0 := by
  decide

/-- C4 (amended): for `timeout ≤ 0` the poller performs zero loop
iterations (zero sleeps) and returns failure, and the condition's value
is never compared against `expected_value` (the result is failure even
when the initial value matches); however, in the callable form the
callable is invoked exactly once — the pre-loop initial evaluation —
never zero times. -/
theorem zero_timeout_returns_failure (f : Nat → α) (v expected : α) (T p : ℚ)
    (fuel : Nat) (hT : T ≤ 0) (hfuel : 1 ≤ fuel) :
    wait_for_callable f expected T p fuel = some ⟨false, f 0, 1, 0⟩ ∧
    wait_for_variable v expected T p fuel = some ⟨false, v, 0⟩ ∧
    wait_for (WaitCondition.callable f) expected T p false fuel =
      some (WaitOutcome.ret false) ∧
    wait_for (WaitCondition.static v) expected T p false fuel =
      some (WaitOutcome.ret false) := by
  obtain ⟨n, rfl⟩ : ∃ n, fuel = n + 1 := ⟨fuel - 1, by omega⟩
  have ht : ¬ (0 : ℚ) < T := not_lt.mpr hT
  have h1 : wait_for_callable f expected T p (n + 1) = some ⟨false, f 0, 1, 0⟩ := by
    rw [wait_for_callable, waitCallLoop_succ, if_neg ht]
  have h2 : wait_for_variable v expected T p (n + 1) = some ⟨false, v, 0⟩ := by
    rw [wait_for_variable, waitVarLoop_succ, if_neg ht]
  refine ⟨h1, h2, ?_, ?_⟩
  · simp [wait_for, h1]
  · simp [wait_for, h2]

/-- C4 (witness). -/
theorem zero_timeout_returns_failure_witness :
    wait_for_callable (fun _ => (0 : Int)) 1 0 1 3 = some ⟨false, 0, 1, 0⟩ ∧
    wait_for_variable (5 : Int) 1 0 1 3 = some ⟨false, 5, 0⟩ ∧
    wait_for (WaitCondition.callable (fun _ => (0 : Int))) 1 0 1 false 3 =
      some (WaitOutcome.ret false) ∧
    wait_for (WaitCondition.static (5 : Int)) 1 0 1 false 3 =
      some (WaitOutcome.ret false) :=
  zero_timeout_returns_failure (fun _ => 0) 5 1 0 1 3 (by decide) (by decide)

/-- C5: for a static (non-callable) condition the compared value is the
snapshot taken at entry: from any loop state carrying the snapshot, the
reported last value is that snapshot, and success depends only on the
one-time comparison of the snapshot with `expected_value` (together with
the clock) — the condition is never re-evaluated to anything else. -/
theorem static_condition_snapshot (v expected : α) (T p : ℚ) (fuel : Nat)
    (r : PollResult α)
    (h : wait_for_variable v expected T p fuel = some r) :
    r.last = v ∧ (r.success = true ↔ (v = expected ∧ 0 < T)) :=
  wait_for_variable_inv v expected T p fuel r h

/-- C5 (witness). -/
theorem static_condition_snapshot_witness :
    (PollResult.last ⟨false, (3 : Int), 0⟩ = 3) ∧
    (PollResult.success (α := Int) ⟨false, 3, 0⟩ = true ↔ ((3 : Int) = 4 ∧ (0 : ℚ) < 0)) :=
  static_condition_snapshot (3 : Int) 4 0 1 2 ⟨false, 3, 0⟩ (by decide)

/-! ## Line counting (src/utils.py lines 7-74)

A file's content is modelled as the list of strings Python's file
iteration yields (one element per line, a final line without a trailing
newline included, an empty file yielding no elements).  A regex filter
`re.match(name_filter, basename)` is modelled as a predicate on the
basename.  The listing produced by
`glob.glob(os.path.join(dir_path, '**'), recursive=recursive)` — the
immediate children when `recursive` is false, every descendant otherwise
— is supplied as a list of entries, each either a file (basename plus
content) or a directory. -/

/-- An entry of the `glob` listing walked by `count_dir_lines`. -/
inductive GlobEntry where
  | file (name : String) (content : List String)
  | dir (name : String)

/-- The error a line-counting call can raise.  `count_lines` raises
`FileNotFoundError` on a missing path (src/utils.py line 24); the other
two functions never raise. -/
inductive CountError where
  | fileNotFound
deriving DecidableEq, Repr

/-- The line count of an existing file (src/utils.py lines 67-71):
`i = 0`, then `for i, l in enumerate(f): pass`, then `return i + 1`; for
an empty file the loop body never runs and `i` stays `0`. -/
def count_file_lines_content (content : List String) : Int :=
  if content.length = 0 then 1 else (content.length : Int)

/-- `count_file_lines(file_path)` (src/utils.py lines 60-74): the
argument is `some content` when `os.path.isfile` holds and `none`
otherwise; a missing file prints an error and returns `-1`. -/
def count_file_lines (file : Option (List String)) : Except CountError Int :=
  match file with
  | some content => Except.ok (count_file_lines_content content)
  | none => Except.ok (-1)

/-- The inner filter loop of `count_dir_lines` (src/utils.py lines
46-49): the first filter matching the basename contributes the file's
line count and `break`s; when no filter matches, nothing is added. -/
def filterLoopCount (filters : List (String → Bool)) (name : String) (cnt : Int) : Int :=
  match filters with
  | [] => 0
  | flt :: rest => if flt name then cnt else filterLoopCount rest name cnt

/-- Contribution of one `glob` entry to the total of `count_dir_lines`
(src/utils.py lines 42-52): directories are skipped by `os.path.isfile`;
a falsy `file_filters` (Python `None` or the empty list) counts every
file, otherwise only the filter loop's contribution is added. -/
def globEntryCount (file_filters : Option (List (String → Bool))) (e : GlobEntry) : Int :=
  match e with
  | GlobEntry.dir _ => 0
  | GlobEntry.file name content =>
    match file_filters with
    | none => count_file_lines_content content
    | some [] => count_file_lines_content content
    | some (flt :: rest) => filterLoopCount (flt :: rest) name (count_file_lines_content content)

/-- `count_dir_lines(dir_path, recursive, file_filters)` (src/utils.py
lines 27-57): the argument is `some entries` (the glob listing for the
chosen `recursive` flag) when `os.path.exists(dir_path)` holds and
`none` otherwise; a missing directory prints an error and returns `-1`. -/
def count_dir_lines (dir : Option (List GlobEntry))
    (file_filters : Option (List (String → Bool))) : Except CountError Int :=
  match dir with
  | none => Except.ok (-1)
  | some entries => Except.ok ((entries.map (globEntryCount file_filters)).sum)

/-- What a path names on the filesystem: an existing directory (with its
glob listing), an existing file (with its content), or nothing. -/
inductive PathKind where
  | dirPath (entries : List GlobEntry)
  | filePath (content : List String)
  | missing

/-- `count_lines(path, recursive, filters)` (src/utils.py lines 7-24):
dispatches on `os.path.isdir` / `os.path.isfile`, and raises
`FileNotFoundError` when the path does not exist. -/
def count_lines (p : PathKind) (filters : Option (List (String → Bool))) :
    Except CountError Int :=
  match p with
  | PathKind.dirPath entries => count_dir_lines (some entries) filters
  | PathKind.filePath content => count_file_lines (some content)
  | PathKind.missing => Except.error CountError.fileNotFound

/-- Whether a line-counting call reported its failure by raising. -/
def raisedError (r : Except CountError Int) : Bool :=
  match r with
  | Except.error _ => true
  | Except.ok _ => false

/-- The consistency asserted by C6: on a missing path, `count_lines`,
`count_dir_lines` and `count_file_lines` all report the failure through
the same convention (all raise a not-found error, or all return a
sentinel value). -/
def missingPathConventionConsistent : Prop :=
  raisedError (count_lines PathKind.missing none) =
      raisedError (count_dir_lines none none) ∧
    raisedError (count_lines PathKind.missing none) =
      raisedError (count_file_lines none)

/-- C6 (counterexample): the three entry points do not share one
missing-path convention — `count_lines` raises while `count_dir_lines`
(and `count_file_lines`) return the `-1` sentinel. -/
theorem missing_path_convention_cex : ¬ missingPathConventionConsistent := by
  intro h
  exact absurd h.1 (by decide)

/-- C6 (amended): every entry point does report a missing path, but each
with its own documented convention rather than one shared one:
`count_lines` raises `FileNotFoundError`, while `count_dir_lines` and
`count_file_lines` return the sentinel `-1`. -/
theorem missing_path_reporting :
    count_lines PathKind.missing none = Except.error CountError.fileNotFound ∧
    count_dir_lines none none = Except.ok (-1) ∧
    count_file_lines none = Except.ok (-1) :=
  ⟨rfl, rfl, rfl⟩

/-- The filter loop contributes the file's line count exactly once when
any filter matches the basename, and nothing otherwise. -/
lemma filterLoopCount_eq (name : String) (cnt : Int) :
    ∀ filters : List (String → Bool),
      filterLoopCount filters name cnt =
        if filters.any (fun flt => flt name) then cnt else 0 := by
  intro filters
  induction filters with
  | nil => simp [filterLoopCount]
  | cons flt rest ih =>
    by_cases h : flt name
    · simp [filterLoopCount, h]
    · simp [filterLoopCount, h, ih]

/-- Specification-side total: the line counts of the files whose
basename matches at least one filter, each file counted once. -/
def filteredLineSum (filters : List (String → Bool)) (entries : List GlobEntry) : Int :=
  (entries.map (fun e =>
    match e with
    | GlobEntry.dir _ => 0
    | GlobEntry.file name content =>
      if filters.any (fun flt => flt name) then count_file_lines_content content
      else 0)).sum

/-- Pointwise form of the entry contribution under a non-empty filter
list. -/
lemma globEntryCount_cons (flt : String → Bool) (rest : List (String → Bool))
    (e : GlobEntry) :
    globEntryCount (some (flt :: rest)) e =
      match e with
      | GlobEntry.dir _ => 0
      | GlobEntry.file name content =>
        if (flt :: rest).any (fun g => g name) then count_file_lines_content content
        else 0 := by
  cases e with
  | dir n => rfl
  | file name content => simp [globEntryCount, filterLoopCount_eq]

/-- `suffix.data.isSuffixOf s.data`: model of a regex filter matching
filenames that end in a given suffix (test data for C7). -/
def strEndsWith (s suf : String) : Bool := suf.data.isSuffixOf s.data

/-- `prefix.data.isPrefixOf s.data`: model of a regex filter matching
filenames that start with a given text (test data for C7). -/
def strStartsWith (s pre : String) : Bool := pre.data.isPrefixOf s.data

/-- A directory containing exactly `a.py` with 5 lines and `b.py` with 3
lines (test data for C7). -/
def pyDir : List GlobEntry :=
  [GlobEntry.file "a.py" ["l1", "l2", "l3", "l4", "l5"],
   GlobEntry.file "b.py" ["m1", "m2", "m3"]]

/-- C7: under a non-empty filter list, `count_dir_lines` totals exactly
the line counts of the files whose basename matches at least one filter,
each matching file counted once even when several filters match (the
inner loop `break`s after the first match); in particular on a directory
holding exactly `a.py` (5 lines) and `b.py` (3 lines) a `*.py` filter
yields 8, also through `count_lines`, and adding a second filter that
also matches `a.py` still yields 8. -/
theorem count_dir_lines_filtered (flt : String → Bool) (rest : List (String → Bool))
    (entries : List GlobEntry) :
    count_dir_lines (some entries) (some (flt :: rest)) =
      Except.ok (filteredLineSum (flt :: rest) entries) ∧
    count_dir_lines (some pyDir) (some [fun s => strEndsWith s ".py"]) = Except.ok 8 ∧
    count_lines (PathKind.dirPath pyDir) (some [fun s => strEndsWith s ".py"]) =
      Except.ok 8 ∧
    count_dir_lines (some pyDir)
      (some [fun s => strEndsWith s ".py", fun s => strStartsWith s "a"]) =
      Except.ok 8 := by
  refine ⟨?_, rfl, rfl, rfl⟩
  simp only [count_dir_lines, filteredLineSum]
  rw [funext (globEntryCount_cons flt rest)]

/-- C7 (witness). -/
theorem count_dir_lines_filtered_witness :
    count_dir_lines (some pyDir) (some [fun s => strEndsWith s ".py"]) =
      Except.ok (filteredLineSum [fun s => strEndsWith s ".py"] pyDir) :=
  (count_dir_lines_filtered (fun s => strEndsWith s ".py") [] pyDir).1

/-- C10: `count_file_lines` on an existing file never returns 0: an
empty file yields 1 (`i` stays 0 and `i + 1` is returned), the same
count as a one-line file, and every existing file yields at least 1. -/
theorem count_file_lines_at_least_one :
    (∀ content : List String, 1 ≤ count_file_lines_content content) ∧
    count_file_lines_content [] = 1 ∧
    count_file_lines_content ["single line"] = 1 ∧
    (∀ content : List String, count_file_lines (some content) ≠ Except.ok 0) := by
  have hmain : ∀ content : List String, 1 ≤ count_file_lines_content content := by
    intro content
    rw [count_file_lines_content]
    split
    · exact le_refl 1
    · rename_i hne
      have : 1 ≤ content.length := Nat.one_le_iff_ne_zero.mpr hne
      exact_mod_cast this
  refine ⟨hmain, rfl, rfl, ?_⟩
  intro content h
  have h0 : count_file_lines_content content = 0 := by
    have := congrArg (fun r => match r with | Except.ok n => n | Except.error _ => 0) h
    simpa [count_file_lines] using this
  have := hmain content
  omega

end Utils

namespace Enumeration

/-- A Python value as used by the enumeration helper: enum constants are
strings or numbers, and the `_enum_values` cache attribute holds a list. -/
inductive PyVal where
  | str (s : String)
  | int (n : Int)
  | list (vs : List PyVal)

mutual

/-- Python `==` on the modelled values (structural; comparing a string
with a number is `False`, never an error). -/
def PyVal.beq : PyVal → PyVal → Bool
  | PyVal.str a, PyVal.str b => a == b
  | PyVal.int a, PyVal.int b => a == b
  | PyVal.list a, PyVal.list b => PyVal.beqList a b
  | _, _ => false

/-- Python `==` on lists of modelled values, element by element. -/
def PyVal.beqList : List PyVal → List PyVal → Bool
  | [], [] => true
  | a :: as, b :: bs => PyVal.beq a b && PyVal.beqList as bs
  | _, _ => false

end

instance : BEq PyVal := ⟨PyVal.beq⟩

/-- `s.startswith(pre)` on Python strings, as character-list prefix
testing. -/
def pyStartsWith (s pre : String) : Bool := pre.data.isPrefixOf s.data

/-- `s.lower()` on Python strings, lowering character by character. -/
def pyLower (s : String) : String := String.mk (s.data.map Char.toLower)

/-- A class `__dict__`: attribute names with their values, in insertion
order (Python dicts preserve it). -/
abbrev ClassDict := List (String × PyVal)

/-- Python dict lookup. -/
def lookupAttr (d : ClassDict) (name : String) : Option PyVal :=
  match d with
  | [] => none
  | (n, v) :: rest => if n = name then some v else lookupAttr rest name

/-- Python dict assignment: an existing key keeps its insertion
position, a new key is appended. -/
def setAttr (d : ClassDict) (name : String) (v : PyVal) : ClassDict :=
  match d with
  | [] => [(name, v)]
  | (n, w) :: rest => if n = name then (n, v) :: rest else (n, w) :: setAttr rest name v

/-- A subclass of `Enumeration`, represented by its own `__dict__`
(src/enumeration.py: the subclass declares its constants as class
variables).  The base class attribute `_enum_values = []`
(src/enumeration.py line 9) is inherited whenever the subclass has not
set its own. -/
structure EnumClass where
  dict : ClassDict

/-- Reading `cls._enum_values`: the subclass's own attribute when set,
else the inherited base-class default `[]`.  The attribute is only ever
assigned a list (src/enumeration.py line 27). -/
def EnumClass.cachedValues (c : EnumClass) : List PyVal :=
  match lookupAttr c.dict "_enum_values" with
  | some (PyVal.list vs) => vs
  | some (PyVal.str _) => []
  | some (PyVal.int _) => []
  | none => []

/-- `Enumeration.enum_values(cls, refresh=False)` (src/enumeration.py
lines 11-29): when `refresh` is set or the cache is falsy (the inherited
empty list), collect the values of every entry of `cls.__dict__` whose
name does not start with `__`, store the list in `cls._enum_values`, and
return it; otherwise serve the cache.  Returns the value together with
the updated class state. -/
def enum_values (c : EnumClass) (refresh : Bool) : List PyVal × EnumClass :=
  if refresh ∨ c.cachedValues.isEmpty then
    let values := (c.dict.filter (fun p => !(pyStartsWith p.fst "__"))).map Prod.snd
    (values, ⟨setAttr c.dict "_enum_values" (PyVal.list values)⟩)
  else
    (c.cachedValues, c)

/-- `Enumeration.contains(cls, item, refresh=False, ignore_case=False)`
(src/enumeration.py lines 31-52): with `ignore_case` set and a string
item, compare the lowered item against the lowered string values,
returning at the first match; otherwise test plain membership in
`enum_values`.  Returns the boolean together with the updated class
state. -/
def contains (c : EnumClass) (item : PyVal) (refresh : Bool) (ignore_case : Bool) :
    Bool × EnumClass :=
  match ignore_case, item with
  | true, PyVal.str s =>
    let p := enum_values c refresh
    (p.fst.any (fun v =>
      match v with
      | PyVal.str t => pyLower s = pyLower t
      | PyVal.int _ => false
      | PyVal.list _ => false), p.snd)
  | _, _ =>
    let p := enum_values c refresh
    (p.fst.contains item, p.snd)

/-- A subclass declaring exactly the constants `mon = 'Monday'` and
`tue = 'Tuesday'` (the dunder entries every class `__dict__` carries are
filtered out by `enum_values`). -/
def weekCls : EnumClass :=
  ⟨[("__module__", PyVal.str "main"), ("__qualname__", PyVal.str "Week"),
    ("mon", PyVal.str "Monday"), ("tue", PyVal.str "Tuesday")]⟩

/-- The class state after a first `enum_values()` call on `weekCls`:
`_enum_values` is now an attribute of the subclass `__dict__` itself. -/
def weekClsUsed : EnumClass := (enum_values weekCls false).snd

/-- C8: after an earlier `enum_values()` call has stored the cache on
the subclass, a forced reload with `refresh=True` walks a `__dict__`
that now also holds `_enum_values` — a name that does not start with
`__` — so the previous cache list itself is returned among the "enum
values", contradicting the specified behaviour of returning exactly the
declared constants.  (The first call and the cached path do return
exactly the declared constants.) -/
theorem enum_values_refresh_includes_cache :
    (enum_values weekCls false).fst = [PyVal.str "Monday", PyVal.str "Tuesday"] ∧
    (enum_values weekClsUsed false).fst = [PyVal.str "Monday", PyVal.str "Tuesday"] ∧
    (enum_values weekClsUsed true).fst =
      [PyVal.str "Monday", PyVal.str "Tuesday",
        PyVal.list [PyVal.str "Monday", PyVal.str "Tuesday"]] ∧
    (enum_values weekClsUsed true).fst ≠ [PyVal.str "Monday", PyVal.str "Tuesday"] := by
  have h3 : (enum_values weekClsUsed true).fst =
      [PyVal.str "Monday", PyVal.str "Tuesday",
        PyVal.list [PyVal.str "Monday", PyVal.str "Tuesday"]] := rfl
  refine ⟨rfl, rfl, h3, ?_⟩
  intro h
  rw [h3] at h
  exact absurd (congrArg List.length h) (by simp)

/-- C9: on the subclass declaring exactly `mon = 'Monday'` and
`tue = 'Tuesday'`, `enum_values()` returns exactly the two declared
constant values; `contains('monday', ignore_case=True)` is true; and
case-sensitive `contains('monday')` is false. -/
theorem week_enum_values_and_contains :
    (enum_values weekCls false).fst = [PyVal.str "Monday", PyVal.str "Tuesday"] ∧
    (contains weekCls (PyVal.str "monday") false true).fst = true ∧
    (contains weekCls (PyVal.str "monday") false false).fst = false := by
  refine ⟨rfl, ?_, ?_⟩ <;> decide

end Enumeration
